import Mathlib

/-!
Shallow embedding of `src/cutter.c` (an FFmpeg-based frame extractor that
decodes the first video stream of a media container and writes each decoded
frame as a PNG file).

External library calls (libavformat / libavcodec / libswscale / libpng) are
modelled by environment records describing their outcomes; the control flow
of `main`, `decode_packet` and `save_frame_to_png` is translated statement by
statement.  A run produces a trace of observable events (resource
acquisition and release, packets submitted to the decoder, receive calls,
pixel-format warnings, files written, per-iteration packet unref) together
with the process exit status.
-/

namespace MP4toPNG

/-- Pixel-format tags, with the numeric values of FFmpeg's AVPixelFormat. -/
def AV_PIX_FMT_YUV420P : Int := 0

/-- RGB24 pixel-format tag (AVPixelFormat value 2). -/
def AV_PIX_FMT_RGB24 : Int := 2

/-- Number of images to create: the C constant IMAGES_TOTAL. -/
def IMAGES_TOTAL : Nat := 10

/-- Media type of a stream (AVMediaType). -/
inductive CodecType
  | video
  | audio
  | other
deriving DecidableEq

/-- Per-stream metadata relevant to stream selection: the media type and the
codec identifier, as read from AVStream.codecpar. -/
structure StreamDesc where
  codecType : CodecType
  codecId : Nat
deriving DecidableEq

/-- A decoded frame as seen by this program: dimensions, pixel-format tag,
the stride of plane 0 and the address of plane 0's buffer. -/
structure Frame where
  width : Nat
  height : Nat
  format : Int
  linesize0 : Nat
  dataBase : Nat
deriving DecidableEq

/-- Environment outcomes for processing one successfully received frame:
the frame itself, the return value of av_frame_get_buffer on the RGB frame,
the return value of sws_scale, and the return value of save_frame_to_png. -/
structure FrameStep where
  frame : Frame
  getBufferRet : Int
  swsRet : Int
  pngRet : Int
deriving DecidableEq

/-- The outcome avcodec_receive_frame reports once a packet's frames are
exhausted: EAGAIN, AVERROR_EOF, or some other (negative) error code. -/
inductive RecvTerminal
  | again
  | eof
  | err (e : Int)
deriving DecidableEq

/-- One demultiplexed packet together with the decoder's behaviour on it:
its stream index, the return value of avcodec_send_packet, the frames that
successive avcodec_receive_frame calls deliver, and the terminal receive
outcome after those frames. -/
structure PacketDesc where
  streamIndex : Nat
  sendRet : Int
  frames : List FrameStep
  terminal : RecvTerminal
deriving DecidableEq

/-- Resources acquired and released during a run. -/
inductive Res
  | formatCtx
  | codecCtx
  | inputFrame
  | inputPacket
  | rgbFrame (n : Nat)
  | swsCtx (n : Nat)
deriving DecidableEq

/-- Observable events of a run. -/
inductive Event
  | acquire (r : Res)
  | release (r : Res)
  | submitPacket (i : Nat)
  | submitFlush
  | receiveCall
  | warnFormat (n : Nat)
  | swsCall (n : Nat)
  | fileWritten (n : Nat) (name : String)
  | unref (i : Nat)
deriving DecidableEq

/-- The decoder context state this program observes: AVCodecContext's
frame_number counter, incremented by avcodec_receive_frame on every
successfully returned frame. -/
structure CodecCtx where
  frame_number : Nat
deriving DecidableEq

/-- Decimal digit rendered as a character, modelling printf's %d digits. -/
def decChar (d : Nat) : Char := Char.ofNat (48 + d)

/-- Fuel-based most-significant-first decimal digit rendering; the fuel is
an upper bound on the rendered number, making the recursion structural. -/
def decAux : Nat → Nat → List Char
  | 0, _ => []
  | fuel + 1, n =>
    if n = 0 then [] else decAux fuel (n / 10) ++ [decChar (n % 10)]

/-- Decimal rendering of a natural number, modelling snprintf's %d. -/
def natDec (n : Nat) : String :=
  if n = 0 then "0" else String.mk (decAux n n)

/-- The output filename built by snprintf("output/%s-%d.png", "frame", n). -/
def pngName (n : Nat) : String := "output/frame-" ++ natDec n ++ ".png"

/-- Body of decode_packet's inner if (ret >= 0) block, for one received
frame.  The context passed in has already been advanced by the receive call.
Returns the events of this block and its outcome: ok to keep draining, or
the error value decode_packet returns. -/
def processOneFrame (ctx : CodecCtx) (fs : FrameStep) : List Event × Except Int Unit :=
  let n := ctx.frame_number
  let fname := pngName n
  let warnEvs : List Event :=
    if fs.frame.format = AV_PIX_FMT_YUV420P then [] else [Event.warnFormat n]
  let evs0 := warnEvs ++ [Event.acquire (Res.swsCtx n), Event.acquire (Res.rgbFrame n)]
  if fs.getBufferRet < 0 then (evs0, Except.error fs.getBufferRet)
  else if fs.swsRet < 0 then (evs0 ++ [Event.swsCall n], Except.error fs.swsRet)
  else if fs.pngRet < 0 then (evs0 ++ [Event.swsCall n], Except.error (-1))
  else
    (evs0 ++ [Event.swsCall n, Event.fileWritten n fname, Event.release (Res.rgbFrame n)],
     Except.ok ())

/-- Drain loop of decode_packet: avcodec_receive_frame is called repeatedly;
each delivered frame advances frame_number and is processed; the terminal
outcome ends the loop (EAGAIN/AVERROR_EOF break with success, any other
negative value is returned as an error). -/
def drain (ctx : CodecCtx) : List FrameStep → RecvTerminal → CodecCtx × List Event × Except Int Unit
  | [], t =>
    (ctx, [Event.receiveCall],
      match t with
      | RecvTerminal.again => Except.ok ()
      | RecvTerminal.eof => Except.ok ()
      | RecvTerminal.err e => Except.error e)
  | fs :: rest, t =>
    let ctx1 : CodecCtx := ⟨ctx.frame_number + 1⟩
    let pr := processOneFrame ctx1 fs
    match pr.2 with
    | Except.error e => (ctx1, Event.receiveCall :: pr.1, Except.error e)
    | Except.ok () =>
      let d := drain ctx1 rest t
      (d.1, Event.receiveCall :: pr.1 ++ d.2.1, d.2.2)

/-- decode_packet: submit the packet with avcodec_send_packet (a negative
return aborts immediately), then drain all available frames. -/
def decode_packet (i : Nat) (pkt : PacketDesc) (ctx : CodecCtx) :
    CodecCtx × List Event × Except Int Unit :=
  if pkt.sendRet < 0 then (ctx, [Event.submitPacket i], Except.error pkt.sendRet)
  else
    let d := drain ctx pkt.frames pkt.terminal
    (d.1, Event.submitPacket i :: d.2.1, d.2.2)

/-- The packet-reading loop of main.  Arguments: selected video stream
index, decoder context, the counter, the absolute index of the next packet,
and the remaining packets.  Returns the final context, the trace, and the
number of packets consumed from the list (loop iterations entered). -/
def mainLoop (vsi : Nat) (ctx : CodecCtx) (counter : Nat) (i : Nat) :
    List PacketDesc → CodecCtx × List Event × Nat
  | [] => (ctx, [], 0)
  | pkt :: rest =>
    if pkt.streamIndex = vsi then
      let d := decode_packet i pkt ctx
      match d.2.2 with
      | Except.error _ => (d.1, d.2.1, 1)
      | Except.ok () =>
        if counter > IMAGES_TOTAL then (d.1, d.2.1, 1)
        else
          let m := mainLoop vsi d.1 (counter + 1) (i + 1) rest
          (m.1, d.2.1 ++ Event.unref i :: m.2.1, m.2.2 + 1)
    else
      let m := mainLoop vsi ctx counter (i + 1) rest
      (m.1, Event.unref i :: m.2.1, m.2.2 + 1)

/-- The stream-selection loop of main, carried index and selection included:
streams whose codec id has no registered decoder are skipped (continue);
the first resolvable video stream is recorded; later streams never
overwrite the recorded index. -/
def selectVideoStreamAux (resolvable : Nat → Bool) : Nat → Option Nat → List StreamDesc → Option Nat
  | _, vsi, [] => vsi
  | i, vsi, s :: rest =>
    if resolvable s.codecId then
      if s.codecType = CodecType.video then
        selectVideoStreamAux resolvable (i + 1) (if vsi = none then some i else vsi) rest
      else
        selectVideoStreamAux resolvable (i + 1) vsi rest
    else
      selectVideoStreamAux resolvable (i + 1) vsi rest

/-- Stream selection as performed by main's for loop over all streams. -/
def selectVideoStream (resolvable : Nat → Bool) (streams : List StreamDesc) : Option Nat :=
  selectVideoStreamAux resolvable 0 none streams

/-- Environment of a whole run: CLI argument count, the outcome of every
fallible external setup call, the decoder registry, the parsed streams, the
demultiplexed packets, and the frames the decoder still holds internally
when the demultiplexer reports end of stream (observable only if the
decoder were flushed). -/
structure Env where
  argc : Nat
  allocFormatOk : Bool
  openOk : Bool
  probeOk : Bool
  resolvable : Nat → Bool
  streams : List StreamDesc
  allocCodecCtxOk : Bool
  paramsToCtxOk : Bool
  codecOpenOk : Bool
  frameAllocOk : Bool
  packetAllocOk : Bool
  packets : List PacketDesc
  bufferedAtEof : List Frame

/-- main, translated statement by statement.  Early error paths return -1
without running the teardown block; reaching the loop always falls through
to the teardown block (avformat_close_input, av_packet_free, av_frame_free,
avcodec_free_context) and returns 0.  On avformat_open_input failure the
library itself frees the supplied context, which we record as a release. -/
def runMain (env : Env) : List Event × Int :=
  if env.argc < 2 then ([], -1)
  else if env.allocFormatOk = false then ([], -1)
  else if env.openOk = false then
    ([Event.acquire Res.formatCtx, Event.release Res.formatCtx], -1)
  else if env.probeOk = false then ([Event.acquire Res.formatCtx], -1)
  else
    match selectVideoStream env.resolvable env.streams with
    | none => ([Event.acquire Res.formatCtx], -1)
    | some vsi =>
      if env.allocCodecCtxOk = false then ([Event.acquire Res.formatCtx], -1)
      else if env.paramsToCtxOk = false then
        ([Event.acquire Res.formatCtx, Event.acquire Res.codecCtx], -1)
      else if env.codecOpenOk = false then
        ([Event.acquire Res.formatCtx, Event.acquire Res.codecCtx], -1)
      else if env.frameAllocOk = false then
        ([Event.acquire Res.formatCtx, Event.acquire Res.codecCtx], -1)
      else if env.packetAllocOk = false then
        ([Event.acquire Res.formatCtx, Event.acquire Res.codecCtx,
          Event.acquire Res.inputFrame], -1)
      else
        let m := mainLoop vsi ⟨0⟩ 0 0 env.packets
        ([Event.acquire Res.formatCtx, Event.acquire Res.codecCtx,
          Event.acquire Res.inputFrame, Event.acquire Res.inputPacket]
          ++ m.2.1
          ++ [Event.release Res.formatCtx, Event.release Res.inputPacket,
              Event.release Res.inputFrame, Event.release Res.codecCtx], 0)

/-- The (frame number, filename) pairs of the files successfully written in
a trace. -/
def fileEvents (evs : List Event) : List (Nat × String) :=
  evs.filterMap fun e =>
    match e with
    | Event.fileWritten n s => some (n, s)
    | _ => none

/-- The frame numbers of the files successfully written in a trace. -/
def fileNumbers (evs : List Event) : List Nat := (fileEvents evs).map Prod.fst

/-- The names of the files successfully written in a trace. -/
def filesWritten (evs : List Event) : List String := (fileEvents evs).map Prod.snd

/-- The resources acquired in a trace. -/
def acquiredRes (evs : List Event) : List Res :=
  evs.filterMap fun e =>
    match e with
    | Event.acquire r => some r
    | _ => none

/-- The resources released in a trace. -/
def releasedRes (evs : List Event) : List Res :=
  evs.filterMap fun e =>
    match e with
    | Event.release r => some r
    | _ => none

/-- PNG color type RGB (libpng's PNG_COLOR_TYPE_RGB). -/
def PNG_COLOR_TYPE_RGB : Nat := 2

/-- Outcomes of the fallible libpng/stdio calls inside save_frame_to_png:
fopen, png_create_write_struct, png_create_info_struct, and whether the
setjmp error handler is triggered during writing. -/
structure PngIoEnv where
  fopenOk : Bool
  writeStructOk : Bool
  infoStructOk : Bool
  writeOk : Bool
deriving DecidableEq

/-- The PNG file produced by save_frame_to_png: the IHDR metadata it sets
and the row pointers it hands to png_set_rows. -/
structure PngFile where
  width : Nat
  height : Nat
  bitDepth : Nat
  colorType : Nat
  rowPtrs : List Nat
deriving DecidableEq

/-- save_frame_to_png: every fallible stage returns -1 (modelled as none);
on success the IHDR fields are width, height, 8-bit, RGB, and row pointer y
is frame->data[0] + y * frame->linesize[0]. -/
def save_frame_to_png (penv : PngIoEnv) (frame : Frame) : Option PngFile :=
  if penv.fopenOk = false then none
  else if penv.writeStructOk = false then none
  else if penv.infoStructOk = false then none
  else if penv.writeOk = false then none
  else
    some { width := frame.width, height := frame.height, bitDepth := 8,
           colorType := PNG_COLOR_TYPE_RGB,
           rowPtrs := (List.range frame.height).map
             fun y => frame.dataBase + y * frame.linesize0 }

/-- Row pointers under the tightly-packed assumption the spec warns against
(stride taken to be width times 3 channels), for comparison. -/
def packedRowPtrs (frame : Frame) : List Nat :=
  (List.range frame.height).map fun y => frame.dataBase + y * (3 * frame.width)

/-- Stream selection as the spec words it: the first descriptor whose media
type is video and whose codec identifier resolves to a decoder. -/
def firstDecodableVideo (resolvable : Nat → Bool) : List StreamDesc → Option Nat
  | [] => none
  | s :: rest =>
    if s.codecType = CodecType.video ∧ resolvable s.codecId = true then some 0
    else (firstDecodableVideo resolvable rest).map (· + 1)

/-- A frame step replacing only the source pixel-format tag. -/
def withFormat (fs : FrameStep) (g : Int) : FrameStep :=
  { fs with frame := { fs.frame with format := g } }

/-- A padded RGB frame: 10 pixels wide but a 32-byte stride. -/
def paddedFrame : Frame :=
  { width := 10, height := 2, format := AV_PIX_FMT_RGB24, linesize0 := 32, dataBase := 100 }

/-- The PNG file save_frame_to_png produces for paddedFrame. -/
def paddedFile : PngFile :=
  { width := 10, height := 2, bitDepth := 8, colorType := PNG_COLOR_TYPE_RGB,
    rowPtrs := [100, 132] }

/-- A YUV420P frame whose processing succeeds at every stage. -/
def okFrame : FrameStep :=
  { frame := { width := 320, height := 240, format := AV_PIX_FMT_YUV420P,
               linesize0 := 960, dataBase := 4096 }
    getBufferRet := 0, swsRet := 240, pngRet := 0 }

/-- A video packet (stream index 1) that decodes to exactly one frame. -/
def vidPkt : PacketDesc :=
  { streamIndex := 1, sendRet := 0, frames := [okFrame], terminal := RecvTerminal.again }

/-- An audio packet (stream index 0). -/
def audPkt : PacketDesc :=
  { streamIndex := 0, sendRet := 0, frames := [], terminal := RecvTerminal.again }

/-- A video packet the decoder rejects: avcodec_send_packet returns -22. -/
def badSendPkt : PacketDesc :=
  { streamIndex := 1, sendRet := -22, frames := [], terminal := RecvTerminal.again }

/-- A fully healthy environment (audio stream 0, video stream 1, every
setup call succeeding) delivering n copies of the one-frame video packet. -/
def simpleEnv (n : Nat) : Env :=
  { argc := 2, allocFormatOk := true, openOk := true, probeOk := true
    resolvable := fun _ => true
    streams := [⟨CodecType.audio, 86018⟩, ⟨CodecType.video, 27⟩]
    allocCodecCtxOk := true, paramsToCtxOk := true, codecOpenOk := true
    frameAllocOk := true, packetAllocOk := true
    packets := List.replicate n vidPkt
    bufferedAtEof := [] }

/-- An environment whose container holds only an audio stream. -/
def envNoVideo : Env :=
  { simpleEnv 0 with streams := [⟨CodecType.audio, 86018⟩], packets := [] }

/-- An environment in which avcodec_alloc_context3 fails after the
container has been opened and probed. -/
def envSetupFail : Env :=
  { simpleEnv 0 with allocCodecCtxOk := false }

/-- An environment whose only packet is rejected by the decoder. -/
def envDecodeFail : Env :=
  { simpleEnv 0 with packets := [badSendPkt] }

/-! Injectivity of the decimal rendering and of the output filenames. -/

/-- decAux renders the base-10 digits most significant first whenever the
fuel is sufficient. -/
theorem decAux_eq_digits (fuel : Nat) :
    ∀ n, n ≤ fuel → decAux fuel n = ((Nat.digits 10 n).map decChar).reverse := by
  induction fuel with
  | zero =>
    intro n hn
    interval_cases n
    simp [decAux]
  | succ fuel ih =>
    intro n hn
    by_cases h0 : n = 0
    · simp [decAux, h0]
    · rw [decAux, if_neg h0, ih (n / 10) (by omega),
        Nat.digits_def' (by norm_num : (1 : ℕ) < 10) (Nat.pos_of_ne_zero h0)]
      simp

/-- decAux applied to itself as fuel. -/
theorem decAux_self (n : Nat) : decAux n n = ((Nat.digits 10 n).map decChar).reverse :=
  decAux_eq_digits n n le_rfl

/-- decChar is injective on decimal digits. -/
theorem decChar_inj : ∀ d < 10, ∀ e < 10, decChar d = decChar e → d = e := by decide

/-- Lists of decimal digits with equal renderings are equal. -/
theorem map_decChar_inj (l1 : List Nat) :
    ∀ l2 : List Nat, (∀ d ∈ l1, d < 10) → (∀ d ∈ l2, d < 10) →
      l1.map decChar = l2.map decChar → l1 = l2 := by
  induction l1 with
  | nil => intro l2 _ _ h; cases l2 <;> simp_all
  | cons a l ih =>
    intro l2 h1 h2 h
    cases l2 with
    | nil => simp_all
    | cons b m =>
      simp only [List.map_cons, List.cons.injEq] at h
      have hab := decChar_inj a (h1 a (by simp)) b (h2 b (by simp)) h.1
      have := ih m (fun d hd => h1 d (by simp [hd])) (fun d hd => h2 d (by simp [hd])) h.2
      simp_all

/-- Equal string data means equal strings. -/
theorem string_data_inj {s t : String} (h : s.data = t.data) : s = t := by
  cases s
  cases t
  exact congrArg String.mk (by simpa using h)

/-- A nonzero number never renders to the single digit zero. -/
theorem decAux_ne_zero_render (b : Nat) (hb : b ≠ 0) : decAux b b ≠ ['0'] := by
  intro hd
  rw [decAux_self] at hd
  have hlen := congrArg List.length hd
  simp only [List.length_reverse, List.length_map, List.length_cons,
    List.length_nil] at hlen
  rcases hdig : Nat.digits 10 b with _ | ⟨d, l⟩
  · simp [hdig] at hlen
  · rcases l with _ | ⟨d2, l2⟩
    · rw [hdig] at hd
      simp only [List.map_cons, List.map_nil, List.reverse_cons, List.reverse_nil,
        List.nil_append, List.cons.injEq, and_true] at hd
      have hdlt : d < 10 :=
        Nat.digits_lt_base (by norm_num) (by rw [hdig]; exact List.mem_singleton.mpr rfl)
      have hd0 : d = 0 := decChar_inj d hdlt 0 (by norm_num) (by simpa [decChar] using hd)
      have := Nat.ofDigits_digits 10 b
      rw [hdig, hd0] at this
      simp [Nat.ofDigits] at this
      omega
    · rw [hdig] at hlen
      simp at hlen

/-- natDec is injective. -/
theorem natDec_inj : Function.Injective natDec := by
  intro a b h
  unfold natDec at h
  by_cases ha : a = 0 <;> by_cases hb : b = 0
  · omega
  · rw [if_pos ha, if_neg hb] at h
    have hd : (['0'] : List Char) = decAux b b := by
      simpa using congrArg String.data h
    exact absurd hd.symm (decAux_ne_zero_render b hb)
  · rw [if_neg ha, if_pos hb] at h
    have hd : (['0'] : List Char) = decAux a a := by
      simpa using congrArg String.data h.symm
    exact absurd hd.symm (decAux_ne_zero_render a ha)
  · rw [if_neg ha, if_neg hb] at h
    have hd : decAux a a = decAux b b := by
      simpa using congrArg String.data h
    rw [decAux_self, decAux_self] at hd
    have hmap := List.reverse_injective hd
    have hdig := map_decChar_inj _ _
      (fun d hdm => Nat.digits_lt_base (by norm_num) hdm)
      (fun d hdm => Nat.digits_lt_base (by norm_num) hdm) hmap
    exact Nat.digits.injective 10 hdig

/-- The output filenames are injective in the frame counter. -/
theorem pngName_inj : Function.Injective pngName := by
  intro a b h
  apply natDec_inj
  have hd := congrArg String.data h
  simp only [pngName, String.data_append] at hd
  exact string_data_inj (List.append_cancel_left (List.append_cancel_right hd))

/-! Stream selection (claim C4). -/

/-- Once a video stream is recorded, later streams never change it. -/
theorem selectAux_some (resolvable : Nat → Bool) (j : Nat) (l : List StreamDesc) :
    ∀ i, selectVideoStreamAux resolvable i (some j) l = some j := by
  induction l with
  | nil => intro i; rfl
  | cons s rest ih =>
    intro i
    unfold selectVideoStreamAux
    by_cases hr : resolvable s.codecId <;> by_cases hv : s.codecType = CodecType.video <;>
      simp [hr, hv, ih]

/-- With no stream recorded yet, the selection loop finds the first
resolvable video stream, offset by the carried start index. -/
theorem selectAux_none (resolvable : Nat → Bool) (l : List StreamDesc) :
    ∀ i, selectVideoStreamAux resolvable i none l =
      (firstDecodableVideo resolvable l).map (· + i) := by
  induction l with
  | nil => intro i; rfl
  | cons s rest ih =>
    intro i
    unfold selectVideoStreamAux firstDecodableVideo
    by_cases hr : resolvable s.codecId <;> by_cases hv : s.codecType = CodecType.video
    · simp [hr, hv, selectAux_some]
    · rw [if_pos hr, if_neg hv, if_neg (by simp [hv]), ih]
      cases firstDecodableVideo resolvable rest <;> simp <;> omega
    · rw [if_neg hr, if_neg (by simp [hr]), ih]
      cases firstDecodableVideo resolvable rest <;> simp <;> omega
    · rw [if_neg hr, if_neg (by simp [hr]), ih]
      cases firstDecodableVideo resolvable rest <;> simp <;> omega

/-- The selection loop selects exactly the first decodable video stream. -/
theorem selectVideoStream_eq (resolvable : Nat → Bool) (streams : List StreamDesc) :
    selectVideoStream resolvable streams = firstDecodableVideo resolvable streams := by
  unfold selectVideoStream
  rw [selectAux_none]
  cases firstDecodableVideo resolvable streams <;> simp

/-- When no stream qualifies, the run stops early with exit -1 and no
output files. -/
theorem noVideo_exit (env : Env) (h2 : 2 ≤ env.argc) (hf : env.allocFormatOk = true)
    (ho : env.openOk = true) (hp : env.probeOk = true)
    (hn : selectVideoStream env.resolvable env.streams = none) :
    (runMain env).2 = -1 ∧ filesWritten (runMain env).1 = [] := by
  unfold runMain
  rw [if_neg (by omega)]
  simp [hf, ho, hp, hn, filesWritten, fileEvents]

/-- C4: stream selection iterates all stream descriptors in ascending index
order and selects exactly the first stream whose media type is video and
whose codec identifier resolves to a decoder; streams with unresolvable
codecs are skipped non-fatally, subsequent video streams are ignored, and
if no stream qualifies the run terminates early with a non-zero exit status
and no output files. -/
theorem c4_stream_selection (resolvable : Nat → Bool) (streams : List StreamDesc)
    (env : Env) (h2 : 2 ≤ env.argc) (hf : env.allocFormatOk = true)
    (ho : env.openOk = true) (hp : env.probeOk = true)
    (hn : selectVideoStream env.resolvable env.streams = none) :
    selectVideoStream resolvable streams = firstDecodableVideo resolvable streams
    ∧ (runMain env).2 = -1 ∧ filesWritten (runMain env).1 = [] :=
  ⟨selectVideoStream_eq resolvable streams, (noVideo_exit env h2 hf ho hp hn).1,
   (noVideo_exit env h2 hf ho hp hn).2⟩

/-- Witness for C4 at a concrete registry, stream list and environment. -/
theorem c4_stream_selection_witness :
    selectVideoStream (fun _ => true)
        [⟨CodecType.audio, 86018⟩, ⟨CodecType.video, 27⟩, ⟨CodecType.video, 28⟩] =
      firstDecodableVideo (fun _ => true)
        [⟨CodecType.audio, 86018⟩, ⟨CodecType.video, 27⟩, ⟨CodecType.video, 28⟩]
    ∧ (runMain envNoVideo).2 = -1 ∧ filesWritten (runMain envNoVideo).1 = [] :=
  c4_stream_selection (fun _ => true)
    [⟨CodecType.audio, 86018⟩, ⟨CodecType.video, 27⟩, ⟨CodecType.video, 28⟩]
    envNoVideo (by decide) (by decide) (by decide) (by decide) (by decide)

/-! Drain loop (claims C5, C6, C8). -/

/-- When every per-frame stage succeeds, processOneFrame emits the warn
(if the format differs from YUV420P), the two acquisitions, the conversion
call, the file write and the RGB-frame release, and reports success. -/
theorem processOneFrame_ok (ctx : CodecCtx) (fs : FrameStep)
    (h1 : 0 ≤ fs.getBufferRet) (h2 : 0 ≤ fs.swsRet) (h3 : 0 ≤ fs.pngRet) :
    processOneFrame ctx fs =
      ((if fs.frame.format = AV_PIX_FMT_YUV420P then []
        else [Event.warnFormat ctx.frame_number])
        ++ [Event.acquire (Res.swsCtx ctx.frame_number),
            Event.acquire (Res.rgbFrame ctx.frame_number),
            Event.swsCall ctx.frame_number,
            Event.fileWritten ctx.frame_number (pngName ctx.frame_number),
            Event.release (Res.rgbFrame ctx.frame_number)],
       Except.ok ()) := by
  unfold processOneFrame
  rw [if_neg (by omega), if_neg (by omega), if_neg (by omega)]
  simp

/-- Under per-frame success, the drain loop calls receive once per frame
plus once for the terminal outcome, advances frame_number once per frame,
writes one file per frame, treats EAGAIN and AVERROR_EOF as success, and
returns any other negative terminal as the error. -/
theorem drain_ok_spec (frames : List FrameStep) (t : RecvTerminal) :
    ∀ ctx : CodecCtx,
      (∀ fs ∈ frames, 0 ≤ fs.getBufferRet ∧ 0 ≤ fs.swsRet ∧ 0 ≤ fs.pngRet) →
      ((drain ctx frames t).2.1).count Event.receiveCall = frames.length + 1
      ∧ (drain ctx frames t).1.frame_number = ctx.frame_number + frames.length
      ∧ (fileNumbers (drain ctx frames t).2.1).length = frames.length
      ∧ ((t = RecvTerminal.again ∨ t = RecvTerminal.eof) →
          (drain ctx frames t).2.2 = Except.ok ())
      ∧ (∀ e, t = RecvTerminal.err e → (drain ctx frames t).2.2 = Except.error e) := by
  induction frames with
  | nil =>
    intro ctx _
    refine ⟨by simp [drain], by simp [drain], by simp [drain, fileNumbers, fileEvents], ?_, ?_⟩
    · rintro (ht | ht) <;> simp [drain, ht]
    · intro e ht; simp [drain, ht]
  | cons fs rest ih =>
    intro ctx hok
    have hfs := hok fs (by simp)
    have hrest : ∀ g ∈ rest, 0 ≤ g.getBufferRet ∧ 0 ≤ g.swsRet ∧ 0 ≤ g.pngRet :=
      fun g hg => hok g (by simp [hg])
    have hpr := processOneFrame_ok ⟨ctx.frame_number + 1⟩ fs hfs.1 hfs.2.1 hfs.2.2
    have hd := ih ⟨ctx.frame_number + 1⟩ hrest
    simp only [drain, hpr]
    by_cases hfmt : fs.frame.format = AV_PIX_FMT_YUV420P <;>
      refine ⟨?_, ?_, ?_, ?_, ?_⟩ <;>
        simp_all [List.count_cons, List.count_append, fileNumbers, fileEvents] <;>
          omega

/-- C5: after a packet is submitted, receive is called repeatedly until it
reports EAGAIN or AVERROR_EOF; both end the drain loop with success (a
packet may yield zero, one, or multiple frames — one receive call per frame
plus the terminal call, and one written file per frame), while any other
negative receive outcome aborts with that error. -/
theorem c5_receive_drain (i : Nat) (ctx : CodecCtx) (pkt : PacketDesc)
    (hsend : 0 ≤ pkt.sendRet)
    (hok : ∀ fs ∈ pkt.frames, 0 ≤ fs.getBufferRet ∧ 0 ≤ fs.swsRet ∧ 0 ≤ fs.pngRet) :
    ((decode_packet i pkt ctx).2.1).count Event.receiveCall = pkt.frames.length + 1
    ∧ ((pkt.terminal = RecvTerminal.again ∨ pkt.terminal = RecvTerminal.eof) →
        (decode_packet i pkt ctx).2.2 = Except.ok ())
    ∧ (∀ e, pkt.terminal = RecvTerminal.err e →
        (decode_packet i pkt ctx).2.2 = Except.error e)
    ∧ (fileNumbers (decode_packet i pkt ctx).2.1).length = pkt.frames.length := by
  have hd := drain_ok_spec pkt.frames pkt.terminal ctx hok
  simp only [decode_packet, if_neg (by omega : ¬ pkt.sendRet < 0)]
  refine ⟨?_, fun ht => (hd.2.2.2.1 ht), fun e ht => (hd.2.2.2.2 e ht), ?_⟩
  · simpa [List.count_cons] using hd.1
  · simpa [fileNumbers, fileEvents] using hd.2.2.1

/-- Witness for C5: a packet yielding two frames with an EAGAIN terminal is
drained with three receive calls, success, and two written files. -/
theorem c5_receive_drain_witness :
    ((decode_packet 0 ⟨1, 0, [okFrame, okFrame], RecvTerminal.again⟩ ⟨0⟩).2.1).count
        Event.receiveCall = 3
    ∧ ((RecvTerminal.again = RecvTerminal.again ∨
          RecvTerminal.again = RecvTerminal.eof) →
        (decode_packet 0 ⟨1, 0, [okFrame, okFrame], RecvTerminal.again⟩ ⟨0⟩).2.2 =
          Except.ok ())
    ∧ (∀ e, RecvTerminal.again = RecvTerminal.err e →
        (decode_packet 0 ⟨1, 0, [okFrame, okFrame], RecvTerminal.again⟩ ⟨0⟩).2.2 =
          Except.error e)
    ∧ (fileNumbers (decode_packet 0 ⟨1, 0, [okFrame, okFrame], RecvTerminal.again⟩ ⟨0⟩).2.1).length
        = 2 :=
  c5_receive_drain 0 ⟨0⟩ ⟨1, 0, [okFrame, okFrame], RecvTerminal.again⟩
    (by decide) (by decide)

/-- C8: for every decoded frame whose source pixel format is not planar YUV
4:2:0, a warning is emitted, the conversion still proceeds (sws_scale runs
whenever the RGB buffer allocation succeeded), and the per-frame outcome is
identical to what it would be for any other format tag: the mismatch never
becomes an error. -/
theorem c8_format_mismatch_warning (ctx : CodecCtx) (fs : FrameStep)
    (h : fs.frame.format ≠ AV_PIX_FMT_YUV420P) :
    Event.warnFormat ctx.frame_number ∈ (processOneFrame ctx fs).1
    ∧ (0 ≤ fs.getBufferRet → Event.swsCall ctx.frame_number ∈ (processOneFrame ctx fs).1)
    ∧ ∀ g : Int, (processOneFrame ctx fs).2 = (processOneFrame ctx (withFormat fs g)).2 := by
  refine ⟨?_, ?_, ?_⟩
  · simp only [processOneFrame, if_neg h]
    split_ifs <;> simp
  · intro hb
    simp only [processOneFrame, if_neg h, if_neg (by omega : ¬ fs.getBufferRet < 0)]
    split_ifs <;> simp
  · intro g
    simp only [processOneFrame, withFormat]
    split_ifs <;> simp

/-- Witness for C8: an RGB24-format frame still warns, converts and
succeeds. -/
theorem c8_format_mismatch_warning_witness :
    Event.warnFormat 7 ∈ (processOneFrame ⟨7⟩ (withFormat okFrame AV_PIX_FMT_RGB24)).1
    ∧ (0 ≤ (withFormat okFrame AV_PIX_FMT_RGB24).getBufferRet →
        Event.swsCall 7 ∈ (processOneFrame ⟨7⟩ (withFormat okFrame AV_PIX_FMT_RGB24)).1)
    ∧ ∀ g : Int,
        (processOneFrame ⟨7⟩ (withFormat okFrame AV_PIX_FMT_RGB24)).2 =
          (processOneFrame ⟨7⟩ (withFormat (withFormat okFrame AV_PIX_FMT_RGB24) g)).2 :=
  c8_format_mismatch_warning ⟨7⟩ (withFormat okFrame AV_PIX_FMT_RGB24) (by decide)

/-- C9: the image encoder writes the frame one row at a time, computing row
pointer y as base + y * linesize from the frame's reported stride, never as
base + y * (3 * width): when the stride differs from 3 * width (alignment
padding) and there are at least two rows, the pointers produced differ from
the tightly-packed assumption. -/
theorem c9_row_pointers (penv : PngIoEnv) (frame : Frame) (file : PngFile)
    (h : save_frame_to_png penv frame = some file) :
    file.rowPtrs.length = frame.height
    ∧ (∀ y, y < frame.height →
        file.rowPtrs.getD y 0 = frame.dataBase + y * frame.linesize0)
    ∧ file.width = frame.width ∧ file.height = frame.height
    ∧ file.bitDepth = 8 ∧ file.colorType = PNG_COLOR_TYPE_RGB
    ∧ (frame.linesize0 ≠ 3 * frame.width → 2 ≤ frame.height →
        file.rowPtrs ≠ packedRowPtrs frame) := by
  simp only [save_frame_to_png] at h
  split_ifs at h
  rw [Option.some.injEq] at h
  subst h
  refine ⟨by simp, ?_, rfl, rfl, rfl, rfl, ?_⟩
  · intro y hy
    simp [List.getD, List.getElem?_map, List.getElem?_range hy]
  · intro hls hh heq
    have h1 := congrArg (fun l => l.getD 1 0) heq
    simp only [packedRowPtrs] at h1
    have h2 : (1 : Nat) < frame.height := by omega
    simp [List.getD, List.getElem?_map, List.getElem?_range h2] at h1
    omega

/-- Witness for C9 at a concrete padded frame: width 10, stride 32, so the
second row pointer is base + 32, not base + 30. -/
theorem c9_row_pointers_witness :
    paddedFile.rowPtrs.length = paddedFrame.height
    ∧ paddedFile.rowPtrs.getD 1 0 = paddedFrame.dataBase + 1 * paddedFrame.linesize0
    ∧ paddedFile.rowPtrs ≠ packedRowPtrs paddedFrame := by
  have h := c9_row_pointers ⟨true, true, true, true⟩ paddedFrame paddedFile (by decide)
  exact ⟨h.1, h.2.1 1 (by decide), h.2.2.2.2.2.2 (by decide) (by decide)⟩

/-! Unfolding equations for the packet loop. -/

/-- Loop step on a packet of another stream: unref and continue. -/
theorem mainLoop_cons_other (vsi : Nat) (ctx : CodecCtx) (c i : Nat)
    (pkt : PacketDesc) (rest : List PacketDesc) (h0 : pkt.streamIndex ≠ vsi) :
    mainLoop vsi ctx c i (pkt :: rest) =
      ((mainLoop vsi ctx c (i + 1) rest).1,
       Event.unref i :: (mainLoop vsi ctx c (i + 1) rest).2.1,
       (mainLoop vsi ctx c (i + 1) rest).2.2 + 1) := by
  simp only [mainLoop, if_neg h0]

/-- Loop step on a video packet whose decode fails: break without unref. -/
theorem mainLoop_cons_video_err (vsi : Nat) (ctx : CodecCtx) (c i : Nat)
    (pkt : PacketDesc) (rest : List PacketDesc) (e : Int)
    (h0 : pkt.streamIndex = vsi)
    (hd : (decode_packet i pkt ctx).2.2 = Except.error e) :
    mainLoop vsi ctx c i (pkt :: rest) =
      ((decode_packet i pkt ctx).1, (decode_packet i pkt ctx).2.1, 1) := by
  simp only [mainLoop, if_pos h0, hd]

/-- Loop step on a video packet once the counter exceeds the limit: break
without unref. -/
theorem mainLoop_cons_video_brk (vsi : Nat) (ctx : CodecCtx) (c i : Nat)
    (pkt : PacketDesc) (rest : List PacketDesc) (h0 : pkt.streamIndex = vsi)
    (hd : (decode_packet i pkt ctx).2.2 = Except.ok ()) (hc : c > IMAGES_TOTAL) :
    mainLoop vsi ctx c i (pkt :: rest) =
      ((decode_packet i pkt ctx).1, (decode_packet i pkt ctx).2.1, 1) := by
  simp only [mainLoop, if_pos h0, hd, if_pos hc]

/-- Loop step on a video packet that decodes below the limit: unref and
continue with the counter incremented. -/
theorem mainLoop_cons_video_ok (vsi : Nat) (ctx : CodecCtx) (c i : Nat)
    (pkt : PacketDesc) (rest : List PacketDesc) (h0 : pkt.streamIndex = vsi)
    (hd : (decode_packet i pkt ctx).2.2 = Except.ok ()) (hc : ¬ c > IMAGES_TOTAL) :
    mainLoop vsi ctx c i (pkt :: rest) =
      ((mainLoop vsi (decode_packet i pkt ctx).1 (c + 1) (i + 1) rest).1,
       (decode_packet i pkt ctx).2.1 ++ Event.unref i ::
         (mainLoop vsi (decode_packet i pkt ctx).1 (c + 1) (i + 1) rest).2.1,
       (mainLoop vsi (decode_packet i pkt ctx).1 (c + 1) (i + 1) rest).2.2 + 1) := by
  simp only [mainLoop, if_pos h0, hd, if_neg hc]

/-! Packet discard (claim C7) and absence of decoder flushing (claim C10). -/

/-- Every event of processOneFrame is a warning, an acquisition, a
conversion call, a file write or a release, at the current frame number. -/
theorem processOneFrame_events_shape (ctx : CodecCtx) (fs : FrameStep) :
    ∀ e ∈ (processOneFrame ctx fs).1,
      e = Event.warnFormat ctx.frame_number
      ∨ e = Event.acquire (Res.swsCtx ctx.frame_number)
      ∨ e = Event.acquire (Res.rgbFrame ctx.frame_number)
      ∨ e = Event.swsCall ctx.frame_number
      ∨ e = Event.fileWritten ctx.frame_number (pngName ctx.frame_number)
      ∨ e = Event.release (Res.rgbFrame ctx.frame_number) := by
  intro e he
  simp only [processOneFrame] at he
  split_ifs at he <;> simp_all <;> tauto

/-- The drain loop never emits a packet submission, a packet unref, or a
decoder flush. -/
theorem drain_events_not (frames : List FrameStep) (t : RecvTerminal) :
    ∀ ctx : CodecCtx, ∀ e ∈ (drain ctx frames t).2.1,
      (∀ m, e ≠ Event.submitPacket m) ∧ (∀ m, e ≠ Event.unref m)
      ∧ e ≠ Event.submitFlush := by
  induction frames with
  | nil =>
    intro ctx e he
    simp only [drain, List.mem_singleton] at he
    subst he
    simp
  | cons fs rest ih =>
    intro ctx e he
    have hshape := processOneFrame_events_shape ⟨ctx.frame_number + 1⟩ fs
    simp only [drain] at he
    split at he
    · rcases List.mem_cons.mp he with h | h
      · subst h; simp
      · rcases hshape e h with h1 | h1 | h1 | h1 | h1 | h1 <;> subst h1 <;> simp
    · rcases List.mem_cons.mp he with h | h
      · subst h; simp
      · rcases List.mem_append.mp h with h2 | h2
        · rcases hshape e h2 with h1 | h1 | h1 | h1 | h1 | h1 <;> subst h1 <;> simp
        · exact ih ⟨ctx.frame_number + 1⟩ e h2

/-- decode_packet never emits an unref or a flush, and the only packet it
submits is the packet it was given. -/
theorem decode_packet_events_not (i : Nat) (pkt : PacketDesc) (ctx : CodecCtx) :
    ∀ e ∈ (decode_packet i pkt ctx).2.1,
      (∀ m, e ≠ Event.unref m) ∧ e ≠ Event.submitFlush
      ∧ (∀ m, e = Event.submitPacket m → m = i) := by
  intro e he
  simp only [decode_packet] at he
  split at he
  · simp only [List.mem_singleton] at he
    subst he
    simp
  · rcases List.mem_cons.mp he with h | h
    · subst h; simp
    · have hd := drain_events_not pkt.frames pkt.terminal ctx e h
      exact ⟨hd.2.1, hd.2.2, fun m hm => absurd hm (hd.1 m)⟩

/-- Any packet submission recorded by the loop carries an index at least
the loop's starting packet index. -/
theorem mainLoop_submit_ge (packets : List PacketDesc) (vsi : Nat) :
    ∀ (ctx : CodecCtx) (c i0 m : Nat),
      Event.submitPacket m ∈ (mainLoop vsi ctx c i0 packets).2.1 → i0 ≤ m := by
  induction packets with
  | nil => intro ctx c i0 m h; simp [mainLoop] at h
  | cons pkt rest ih =>
    intro ctx c i0 m h
    simp only [mainLoop] at h
    split at h
    · split at h
      · have := (decode_packet_events_not i0 pkt ctx _ h).2.2 m rfl
        omega
      · split at h
        · have := (decode_packet_events_not i0 pkt ctx _ h).2.2 m rfl
          omega
        · rcases List.mem_append.mp h with h2 | h2
          · have := (decode_packet_events_not i0 pkt ctx _ h2).2.2 m rfl
            omega
          · rcases List.mem_cons.mp h2 with h3 | h3
            · simp at h3
            · have := ih _ _ _ _ h3
              omega
    · rcases List.mem_cons.mp h with h3 | h3
      · simp at h3
      · have := ih _ _ _ _ h3
        omega

/-- C7: for every reached loop iteration whose packet belongs to a stream
other than the selected video stream, the packet is unreferenced in that
iteration and is never submitted to the decoder. -/
theorem c7_discarded_never_submitted (packets : List PacketDesc) (vsi : Nat) :
    ∀ (ctx : CodecCtx) (c i0 j : Nat) (pkt : PacketDesc),
      j < (mainLoop vsi ctx c i0 packets).2.2 →
      packets[j]? = some pkt →
      pkt.streamIndex ≠ vsi →
      Event.unref (i0 + j) ∈ (mainLoop vsi ctx c i0 packets).2.1
      ∧ Event.submitPacket (i0 + j) ∉ (mainLoop vsi ctx c i0 packets).2.1 := by
  induction packets with
  | nil =>
    intro ctx c i0 j pkt hcons hj hne
    simp at hj
  | cons pkt0 rest ih =>
    intro ctx c i0 j pkt hcons hj hne
    cases j with
    | zero =>
      simp only [List.getElem?_cons_zero, Option.some.injEq] at hj
      subst hj
      simp only [mainLoop, if_neg hne]
      refine ⟨by simp, ?_⟩
      intro hmem
      rcases List.mem_cons.mp hmem with h | h
      · simp at h
      · have := mainLoop_submit_ge rest vsi _ _ _ _ h
        omega
    | succ j' =>
      simp only [List.getElem?_cons_succ] at hj
      by_cases h0 : pkt0.streamIndex = vsi
      · rcases hd : (decode_packet i0 pkt0 ctx).2.2 with e | u
        · rw [mainLoop_cons_video_err vsi ctx c i0 pkt0 rest e h0 hd] at hcons
          have hcons1 : j' + 1 < 1 := hcons
          omega
        · cases u
          by_cases hc : c > IMAGES_TOTAL
          · rw [mainLoop_cons_video_brk vsi ctx c i0 pkt0 rest h0 hd hc] at hcons
            have hcons1 : j' + 1 < 1 := hcons
            omega
          · rw [mainLoop_cons_video_ok vsi ctx c i0 pkt0 rest h0 hd hc] at hcons ⊢
            have hcons' : j' <
                (mainLoop vsi (decode_packet i0 pkt0 ctx).1 (c + 1) (i0 + 1) rest).2.2 := by
              have h1 : j' + 1 <
                  (mainLoop vsi (decode_packet i0 pkt0 ctx).1 (c + 1) (i0 + 1) rest).2.2 + 1 :=
                hcons
              omega
            have hih := ih _ _ _ _ _ hcons' hj hne
            have harith : i0 + (j' + 1) = (i0 + 1) + j' := by omega
            rw [harith]
            refine ⟨List.mem_append.mpr (Or.inr (List.mem_cons.mpr (Or.inr hih.1))), ?_⟩
            intro hmem
            rcases List.mem_append.mp hmem with h2 | h2
            · have := (decode_packet_events_not i0 pkt0 ctx _ h2).2.2 _ rfl
              omega
            · rcases List.mem_cons.mp h2 with h3 | h3
              · simp at h3
              · exact hih.2 h3
      · rw [mainLoop_cons_other vsi ctx c i0 pkt0 rest h0] at hcons ⊢
        have hcons' : j' < (mainLoop vsi ctx c (i0 + 1) rest).2.2 := by
          have h1 : j' + 1 < (mainLoop vsi ctx c (i0 + 1) rest).2.2 + 1 := hcons
          omega
        have hih := ih _ _ _ _ _ hcons' hj hne
        have harith : i0 + (j' + 1) = (i0 + 1) + j' := by omega
        rw [harith]
        refine ⟨List.mem_cons.mpr (Or.inr hih.1), ?_⟩
        intro hmem
        rcases List.mem_cons.mp hmem with h3 | h3
        · simp at h3
        · exact hih.2 h3

/-- Witness for C7: with video stream 1 selected, the audio packet in
first position is unreferenced and never submitted. -/
theorem c7_discarded_never_submitted_witness :
    Event.unref (0 + 0) ∈ (mainLoop 1 ⟨0⟩ 0 0 [audPkt, vidPkt]).2.1
    ∧ Event.submitPacket (0 + 0) ∉ (mainLoop 1 ⟨0⟩ 0 0 [audPkt, vidPkt]).2.1 :=
  c7_discarded_never_submitted [audPkt, vidPkt] 1 ⟨0⟩ 0 0 0 audPkt
    (by decide) (by decide) (by decide)

/-! Frame-count limit (claim C1), exit status (claim C2), teardown (claim C3). -/

/-- On the healthy environment, the run reaches the loop and the teardown:
the trace is setup acquisitions, the loop trace, then the teardown
releases, and the exit status is 0. -/
theorem runMain_simpleEnv (n : Nat) :
    runMain (simpleEnv n) =
      ([Event.acquire Res.formatCtx, Event.acquire Res.codecCtx,
        Event.acquire Res.inputFrame, Event.acquire Res.inputPacket]
        ++ (mainLoop 1 ⟨0⟩ 0 0 (List.replicate n vidPkt)).2.1
        ++ [Event.release Res.formatCtx, Event.release Res.inputPacket,
            Event.release Res.inputFrame, Event.release Res.codecCtx], 0) := rfl

/-- Each healthy one-frame video packet decodes successfully. -/
theorem decode_vidPkt_ok (i : Nat) (ctx : CodecCtx) :
    (decode_packet i vidPkt ctx).2.2 = Except.ok () := by
  have hdr := drain_ok_spec vidPkt.frames vidPkt.terminal ctx (by decide)
  simp only [decode_packet, if_neg (by decide : ¬ (vidPkt.sendRet < (0 : Int)))]
  exact hdr.2.2.2.1 (Or.inl rfl)

/-- Each healthy one-frame video packet writes exactly one file. -/
theorem decode_vidPkt_one_file (i : Nat) (ctx : CodecCtx) :
    (fileEvents (decode_packet i vidPkt ctx).2.1).length = 1 := by
  have hdr := drain_ok_spec vidPkt.frames vidPkt.terminal ctx (by decide)
  simp only [decode_packet, if_neg (by decide : ¬ (vidPkt.sendRet < (0 : Int)))]
  have h1 := hdr.2.2.1
  simp only [fileNumbers, List.length_map] at h1
  simpa [fileEvents] using h1

/-- Over n healthy one-frame video packets, the loop writes
min n (IMAGES_TOTAL + 2 - counter) files: the break condition counter >
IMAGES_TOTAL is tested after decode but before the increment, so two more
packets are decoded past the limit. -/
theorem mainLoop_replicate (n : Nat) :
    ∀ (ctx : CodecCtx) (c i : Nat), c ≤ IMAGES_TOTAL + 1 →
      (fileEvents (mainLoop 1 ctx c i (List.replicate n vidPkt)).2.1).length =
        min n (IMAGES_TOTAL + 2 - c) := by
  induction n with
  | zero =>
    intro ctx c i hc
    simp [mainLoop, fileEvents]
  | succ n ih =>
    intro ctx c i hc
    rw [List.replicate_succ]
    by_cases hbrk : c > IMAGES_TOTAL
    · rw [mainLoop_cons_video_brk 1 ctx c i vidPkt (List.replicate n vidPkt) rfl
        (decode_vidPkt_ok i ctx) hbrk]
      have h1 := decode_vidPkt_one_file i ctx
      simp only [IMAGES_TOTAL] at hc hbrk ⊢
      rw [h1]
      omega
    · rw [mainLoop_cons_video_ok 1 ctx c i vidPkt (List.replicate n vidPkt) rfl
        (decode_vidPkt_ok i ctx) hbrk]
      have h1 := decode_vidPkt_one_file i ctx
      have h2 := ih (decode_packet i vidPkt ctx).1 (c + 1) (i + 1)
        (by simp only [IMAGES_TOTAL] at hbrk ⊢; omega)
      simp only [fileEvents, List.filterMap_append, List.filterMap_cons,
        List.length_append] at h1 h2 ⊢
      simp only [IMAGES_TOTAL] at hbrk h2 ⊢
      omega

/-- C1 counterexample: with 15 single-frame video packets and the limit 10,
the run writes 12 files, frame-1.png through frame-12.png, not 11. -/
theorem c1_counterexample :
    filesWritten (runMain (simpleEnv 15)).1 =
      [pngName 1, pngName 2, pngName 3, pngName 4, pngName 5, pngName 6,
       pngName 7, pngName 8, pngName 9, pngName 10, pngName 11, pngName 12]
    ∧ (filesWritten (runMain (simpleEnv 15)).1).length = 12
    ∧ ¬ (filesWritten (runMain (simpleEnv 15)).1).length = 11
    ∧ (runMain (simpleEnv 15)).2 = 0 := by
  refine ⟨by decide, by decide, by decide, by decide⟩

/-- C1 amended: the break condition counter > IMAGES_TOTAL is checked after
decode_packet returns but before the counter (which counts processed video
packets, not extracted frames) is incremented, so with one frame per packet
the run writes min n (IMAGES_TOTAL + 2) files — 12 files for 15 packets and
limit 10 — and exits with status 0. -/
theorem c1_amended_frame_limit (n : Nat) :
    (filesWritten (runMain (simpleEnv n)).1).length = min n (IMAGES_TOTAL + 2)
    ∧ (runMain (simpleEnv n)).2 = 0 := by
  constructor
  · rw [runMain_simpleEnv n]
    have h := mainLoop_replicate n ⟨0⟩ 0 0 (by omega)
    simp only [filesWritten, List.length_map, fileEvents, List.filterMap_append,
      List.filterMap_cons, List.length_append] at h ⊢
    simpa using h
  · rw [runMain_simpleEnv n]

/-- C2: the code exits with status 0 even when the decoder rejects a video
packet mid-loop — the decode error breaks the loop but the negative result
is dropped and main still returns 0 (evaluated at the failing input). -/
theorem c2_exit_zero_on_decode_failure :
    (decode_packet 0 badSendPkt ⟨0⟩).2.2 = Except.error (-22)
    ∧ Event.submitPacket 0 ∈ (runMain envDecodeFail).1
    ∧ filesWritten (runMain envDecodeFail).1 = []
    ∧ (runMain envDecodeFail).2 = 0 := by
  refine ⟨by rfl, by decide, by decide, by decide⟩

/-- C3 counterexample: when avcodec_alloc_context3 fails after the
container was opened and probed, main returns -1 without releasing the
container handle — teardown does not run on this exit path. -/
theorem c3_counterexample :
    Res.formatCtx ∈ acquiredRes (runMain envSetupFail).1
    ∧ Res.formatCtx ∉ releasedRes (runMain envSetupFail).1
    ∧ (runMain envSetupFail).2 = -1 := by
  refine ⟨by decide, by decide, by decide⟩

/-- C3 amended: the teardown block (closing the container, freeing packet,
frame and decoder context) runs on every exit path that reaches the packet
loop — end of stream, limit break, and in-loop decode error alike — but
fatal setup errors return early without releasing already-acquired
resources. -/
theorem c3_amended_teardown (env : Env) (h2 : 2 ≤ env.argc)
    (hf : env.allocFormatOk = true) (ho : env.openOk = true)
    (hp : env.probeOk = true) (vsi : Nat)
    (hs : selectVideoStream env.resolvable env.streams = some vsi)
    (hc : env.allocCodecCtxOk = true) (hpc : env.paramsToCtxOk = true)
    (hco : env.codecOpenOk = true) (hfa : env.frameAllocOk = true)
    (hpa : env.packetAllocOk = true) :
    Res.formatCtx ∈ releasedRes (runMain env).1
    ∧ Res.inputPacket ∈ releasedRes (runMain env).1
    ∧ Res.inputFrame ∈ releasedRes (runMain env).1
    ∧ Res.codecCtx ∈ releasedRes (runMain env).1 := by
  have hn : ¬ env.argc < 2 := by omega
  simp [runMain, hn, hf, ho, hp, hs, hc, hpc, hco, hfa, hpa, releasedRes,
    List.filterMap_append]

/-- Witness for C3 amended at the healthy empty-input environment. -/
theorem c3_amended_teardown_witness :
    Res.formatCtx ∈ releasedRes (runMain (simpleEnv 0)).1
    ∧ Res.inputPacket ∈ releasedRes (runMain (simpleEnv 0)).1
    ∧ Res.inputFrame ∈ releasedRes (runMain (simpleEnv 0)).1
    ∧ Res.codecCtx ∈ releasedRes (runMain (simpleEnv 0)).1 :=
  c3_amended_teardown (simpleEnv 0) (by decide) (by decide) (by decide)
    (by decide) 1 (by decide) (by decide) (by decide) (by decide) (by decide)
    (by decide)

/-! Filename bookkeeping (claim C6). -/

/-- File events ignore receive calls. -/
theorem fileEvents_cons_receive (l : List Event) :
    fileEvents (Event.receiveCall :: l) = fileEvents l := rfl

/-- File events ignore packet unrefs. -/
theorem fileEvents_cons_unref (i : Nat) (l : List Event) :
    fileEvents (Event.unref i :: l) = fileEvents l := rfl

/-- File events ignore packet submissions. -/
theorem fileEvents_cons_submit (i : Nat) (l : List Event) :
    fileEvents (Event.submitPacket i :: l) = fileEvents l := rfl

/-- File events distribute over trace concatenation. -/
theorem fileEvents_append (a b : List Event) :
    fileEvents (a ++ b) = fileEvents a ++ fileEvents b :=
  List.filterMap_append a b _

/-- A failed frame stage writes no file. -/
theorem processOneFrame_err_no_file (ctx : CodecCtx) (fs : FrameStep) (e : Int)
    (h : (processOneFrame ctx fs).2 = Except.error e) :
    fileEvents (processOneFrame ctx fs).1 = [] := by
  simp only [processOneFrame] at h ⊢
  split_ifs at h ⊢ <;> simp_all [fileEvents]

/-- A fully successful frame stage writes exactly its one file. -/
theorem processOneFrame_ok_file (ctx : CodecCtx) (fs : FrameStep)
    (h : (processOneFrame ctx fs).2 = Except.ok ()) :
    fileEvents (processOneFrame ctx fs).1 =
      [(ctx.frame_number, pngName ctx.frame_number)] := by
  simp only [processOneFrame] at h ⊢
  split_ifs at h ⊢ <;> simp_all [fileEvents]

/-- Drain step whose frame processing fails. -/
theorem drain_cons_err (ctx : CodecCtx) (fs : FrameStep) (rest : List FrameStep)
    (t : RecvTerminal) (e : Int)
    (h : (processOneFrame ⟨ctx.frame_number + 1⟩ fs).2 = Except.error e) :
    drain ctx (fs :: rest) t =
      (⟨ctx.frame_number + 1⟩,
       Event.receiveCall :: (processOneFrame ⟨ctx.frame_number + 1⟩ fs).1,
       Except.error e) := by
  simp only [drain, h]

/-- Drain step whose frame processing succeeds. -/
theorem drain_cons_ok (ctx : CodecCtx) (fs : FrameStep) (rest : List FrameStep)
    (t : RecvTerminal)
    (h : (processOneFrame ⟨ctx.frame_number + 1⟩ fs).2 = Except.ok ()) :
    drain ctx (fs :: rest) t =
      ((drain ⟨ctx.frame_number + 1⟩ rest t).1,
       Event.receiveCall :: (processOneFrame ⟨ctx.frame_number + 1⟩ fs).1
         ++ (drain ⟨ctx.frame_number + 1⟩ rest t).2.1,
       (drain ⟨ctx.frame_number + 1⟩ rest t).2.2) := by
  simp only [drain, h]

/-- The files a drain writes carry the consecutive frame numbers starting
right after the incoming frame_number, with their derived names; on
success the count is the frame count and frame_number advances by it. -/
theorem drain_fileEvents (frames : List FrameStep) (t : RecvTerminal) :
    ∀ ctx : CodecCtx, ∃ k, k ≤ frames.length
      ∧ fileEvents (drain ctx frames t).2.1 =
          (List.range k).map (fun j => (ctx.frame_number + 1 + j,
            pngName (ctx.frame_number + 1 + j)))
      ∧ ((drain ctx frames t).2.2 = Except.ok () →
          k = frames.length
          ∧ (drain ctx frames t).1.frame_number = ctx.frame_number + frames.length) := by
  induction frames with
  | nil =>
    intro ctx
    refine ⟨0, le_rfl, by simp [drain, fileEvents], ?_⟩
    intro _
    exact ⟨rfl, by simp [drain]⟩
  | cons fs rest ih =>
    intro ctx
    rcases hpr : (processOneFrame ⟨ctx.frame_number + 1⟩ fs).2 with e | u
    · refine ⟨0, by simp, ?_, ?_⟩
      · rw [drain_cons_err ctx fs rest t e hpr]
        dsimp only
        rw [fileEvents_cons_receive, processOneFrame_err_no_file _ fs e hpr]
        simp
      · rw [drain_cons_err ctx fs rest t e hpr]
        intro h
        simp at h
    · cases u
      obtain ⟨k, hkle, hkeq, hkok⟩ := ih ⟨ctx.frame_number + 1⟩
      refine ⟨k + 1, by simp; omega, ?_, ?_⟩
      · rw [drain_cons_ok ctx fs rest t hpr]
        dsimp only
        simp only [fileEvents_cons_receive, fileEvents_append,
          processOneFrame_ok_file _ fs hpr, hkeq]
        rw [List.range_succ_eq_map]
        simp only [List.map_cons, List.map_map, List.singleton_append]
        refine congrArg₂ List.cons (by simp) ?_
        apply List.map_congr_left
        intro j _
        have h2 : ctx.frame_number + 1 + 1 + j = ctx.frame_number + 1 + (j + 1) := by
          omega
        simp [Function.comp, h2]
      · rw [drain_cons_ok ctx fs rest t hpr]
        dsimp only
        intro hok2
        obtain ⟨hk1, hk2⟩ := hkok hok2
        refine ⟨by simp [hk1], ?_⟩
        simp only [hk2]
        simp
        omega

/-- The files decode_packet writes carry consecutive frame numbers starting
right after the incoming frame_number; on success frame_number advances by
the count. -/
theorem decode_fileEvents (i : Nat) (pkt : PacketDesc) (ctx : CodecCtx) :
    ∃ k, k ≤ pkt.frames.length
      ∧ fileEvents (decode_packet i pkt ctx).2.1 =
          (List.range k).map (fun j => (ctx.frame_number + 1 + j,
            pngName (ctx.frame_number + 1 + j)))
      ∧ ((decode_packet i pkt ctx).2.2 = Except.ok () →
          (decode_packet i pkt ctx).1.frame_number = ctx.frame_number + k) := by
  by_cases hs : pkt.sendRet < 0
  · refine ⟨0, by simp, ?_, ?_⟩
    · simp [decode_packet, hs, fileEvents]
    · simp [decode_packet, hs]
  · obtain ⟨k, hkle, hkeq, hkok⟩ := drain_fileEvents pkt.frames pkt.terminal ctx
    refine ⟨k, hkle, ?_, ?_⟩
    · simp only [decode_packet, if_neg hs, fileEvents_cons_submit]
      exact hkeq
    · simp only [decode_packet, if_neg hs]
      intro hok2
      obtain ⟨hk1, hk2⟩ := hkok hok2
      rw [hk2, hk1]

/-- The files the loop writes carry consecutive frame numbers starting
right after the incoming frame_number, with their derived names. -/
theorem mainLoop_fileEvents (packets : List PacketDesc) (vsi : Nat) :
    ∀ (ctx : CodecCtx) (c i : Nat), ∃ M,
      fileEvents (mainLoop vsi ctx c i packets).2.1 =
        (List.range M).map (fun j => (ctx.frame_number + 1 + j,
          pngName (ctx.frame_number + 1 + j))) := by
  induction packets with
  | nil =>
    intro ctx c i
    exact ⟨0, by simp [mainLoop, fileEvents]⟩
  | cons pkt rest ih =>
    intro ctx c i
    by_cases h0 : pkt.streamIndex = vsi
    · obtain ⟨k, hkle, hkeq, hkok⟩ := decode_fileEvents i pkt ctx
      rcases hd : (decode_packet i pkt ctx).2.2 with e | u
      · rw [mainLoop_cons_video_err vsi ctx c i pkt rest e h0 hd]
        exact ⟨k, by dsimp only; exact hkeq⟩
      · cases u
        by_cases hc : c > IMAGES_TOTAL
        · rw [mainLoop_cons_video_brk vsi ctx c i pkt rest h0 hd hc]
          exact ⟨k, by dsimp only; exact hkeq⟩
        · rw [mainLoop_cons_video_ok vsi ctx c i pkt rest h0 hd hc]
          obtain ⟨M, hM⟩ := ih (decode_packet i pkt ctx).1 (c + 1) (i + 1)
          have hfn := hkok hd
          refine ⟨k + M, ?_⟩
          dsimp only
          rw [fileEvents_append, fileEvents_cons_unref, hkeq, hM, hfn,
            List.range_add]
          simp only [List.map_append, List.map_map]
          refine congrArg₂ List.append rfl ?_
          apply List.map_congr_left
          intro j _
          have h2 : ctx.frame_number + k + 1 + j = ctx.frame_number + 1 + (k + j) := by
            omega
          simp [Function.comp, h2]
    · rw [mainLoop_cons_other vsi ctx c i pkt rest h0]
      obtain ⟨M, hM⟩ := ih ctx c (i + 1)
      exact ⟨M, by dsimp only; rw [fileEvents_cons_unref, hM]⟩

/-- The setup acquisitions contain no file event. -/
theorem fileEvents_setup :
    fileEvents [Event.acquire Res.formatCtx, Event.acquire Res.codecCtx,
      Event.acquire Res.inputFrame, Event.acquire Res.inputPacket] = [] := rfl

/-- The teardown releases contain no file event. -/
theorem fileEvents_teardown :
    fileEvents [Event.release Res.formatCtx, Event.release Res.inputPacket,
      Event.release Res.inputFrame, Event.release Res.codecCtx] = [] := rfl

/-- Either the run fails before the packet loop — with a short fixed trace
holding no file event and no flush — or its trace is exactly the setup
acquisitions, the loop trace, and the teardown releases. -/
theorem runMain_shape (env : Env) :
    (fileEvents (runMain env).1 = [] ∧ Event.submitFlush ∉ (runMain env).1)
    ∨ (∃ vsi, selectVideoStream env.resolvable env.streams = some vsi
        ∧ (runMain env).1 =
            [Event.acquire Res.formatCtx, Event.acquire Res.codecCtx,
             Event.acquire Res.inputFrame, Event.acquire Res.inputPacket]
            ++ (mainLoop vsi ⟨0⟩ 0 0 env.packets).2.1
            ++ [Event.release Res.formatCtx, Event.release Res.inputPacket,
                Event.release Res.inputFrame, Event.release Res.codecCtx]) := by
  by_cases h1 : env.argc < 2
  · left; simp [runMain, h1, fileEvents]
  by_cases h2 : env.allocFormatOk = false
  · left; simp [runMain, h1, h2, fileEvents]
  by_cases h3 : env.openOk = false
  · left; simp [runMain, h1, h2, h3, fileEvents]
  by_cases h4 : env.probeOk = false
  · left; simp [runMain, h1, h2, h3, h4, fileEvents]
  rcases hsel : selectVideoStream env.resolvable env.streams with _ | vsi
  · left; simp [runMain, h1, h2, h3, h4, hsel, fileEvents]
  by_cases h5 : env.allocCodecCtxOk = false
  · left; simp [runMain, h1, h2, h3, h4, hsel, h5, fileEvents]
  by_cases h6 : env.paramsToCtxOk = false
  · left; simp [runMain, h1, h2, h3, h4, hsel, h5, h6, fileEvents]
  by_cases h7 : env.codecOpenOk = false
  · left; simp [runMain, h1, h2, h3, h4, hsel, h5, h6, h7, fileEvents]
  by_cases h8 : env.frameAllocOk = false
  · left; simp [runMain, h1, h2, h3, h4, hsel, h5, h6, h7, h8, fileEvents]
  by_cases h9 : env.packetAllocOk = false
  · left; simp [runMain, h1, h2, h3, h4, hsel, h5, h6, h7, h8, h9, fileEvents]
  right
  refine ⟨vsi, rfl, ?_⟩
  simp [runMain, h1, h2, h3, h4, hsel, h5, h6, h7, h8, h9]

/-- C6: the frame counter used for output filenames is a strictly
increasing integer starting at 1, incremented once per successfully
received frame, and the written files are exactly frame-1.png through
frame-N.png in the fixed output directory, each written once with no two
frames sharing a filename. -/
theorem c6_filenames (env : Env) :
    ∃ N, fileNumbers (runMain env).1 = (List.range N).map (fun k => k + 1)
      ∧ filesWritten (runMain env).1 = (List.range N).map (fun k => pngName (k + 1))
      ∧ (filesWritten (runMain env).1).Nodup := by
  rcases runMain_shape env with ⟨hfe, _⟩ | ⟨vsi, _, htr⟩
  · exact ⟨0, by simp [fileNumbers, hfe], by simp [filesWritten, hfe],
      by simp [filesWritten, hfe]⟩
  · obtain ⟨M, hM⟩ := mainLoop_fileEvents env.packets vsi ⟨0⟩ 0 0
    have htr2 : fileEvents (runMain env).1 =
        (List.range M).map (fun j => (j + 1, pngName (j + 1))) := by
      rw [htr, fileEvents_append, fileEvents_append, fileEvents_setup,
        fileEvents_teardown, List.nil_append, List.append_nil, hM]
      apply List.map_congr_left
      intro j _
      have h2 : (⟨0⟩ : CodecCtx).frame_number + 1 + j = j + 1 := by
        simp
        omega
      rw [h2]
    refine ⟨M, ?_, ?_, ?_⟩
    · rw [fileNumbers, htr2, List.map_map]
      simp [Function.comp]
    · rw [filesWritten, htr2, List.map_map]
      simp [Function.comp]
    · rw [filesWritten, htr2, List.map_map]
      refine List.Nodup.map ?_ (List.nodup_range M)
      intro a b hab
      simp only [Function.comp] at hab
      have := pngName_inj hab
      omega

/-- The packet loop never flushes the decoder. -/
theorem mainLoop_no_flush (packets : List PacketDesc) (vsi : Nat) :
    ∀ (ctx : CodecCtx) (c i : Nat),
      Event.submitFlush ∉ (mainLoop vsi ctx c i packets).2.1 := by
  induction packets with
  | nil => intro ctx c i; simp [mainLoop]
  | cons pkt rest ih =>
    intro ctx c i h
    by_cases h0 : pkt.streamIndex = vsi
    · rcases hd : (decode_packet i pkt ctx).2.2 with e | u
      · rw [mainLoop_cons_video_err vsi ctx c i pkt rest e h0 hd] at h
        dsimp only at h
        exact (decode_packet_events_not i pkt ctx _ h).2.1 rfl
      · cases u
        by_cases hc : c > IMAGES_TOTAL
        · rw [mainLoop_cons_video_brk vsi ctx c i pkt rest h0 hd hc] at h
          dsimp only at h
          exact (decode_packet_events_not i pkt ctx _ h).2.1 rfl
        · rw [mainLoop_cons_video_ok vsi ctx c i pkt rest h0 hd hc] at h
          dsimp only at h
          rcases List.mem_append.mp h with h2 | h2
          · exact (decode_packet_events_not i pkt ctx _ h2).2.1 rfl
          · rcases List.mem_cons.mp h2 with h3 | h3
            · simp at h3
            · exact ih _ _ _ h3
    · rw [mainLoop_cons_other vsi ctx c i pkt rest h0] at h
      dsimp only at h
      rcases List.mem_cons.mp h with h3 | h3
      · simp at h3
      · exact ih _ _ _ h3

/-- The loop writes at most as many files as the packets deliver frames. -/
theorem mainLoop_files_le (packets : List PacketDesc) (vsi : Nat) :
    ∀ (ctx : CodecCtx) (c i : Nat),
      (fileEvents (mainLoop vsi ctx c i packets).2.1).length ≤
        (packets.map (fun p => p.frames.length)).sum := by
  induction packets with
  | nil => intro ctx c i; simp [mainLoop, fileEvents]
  | cons pkt rest ih =>
    intro ctx c i
    obtain ⟨k, hkle, hkeq, _⟩ := decode_fileEvents i pkt ctx
    have hklen : (fileEvents (decode_packet i pkt ctx).2.1).length = k := by
      rw [hkeq]
      simp
    by_cases h0 : pkt.streamIndex = vsi
    · rcases hd : (decode_packet i pkt ctx).2.2 with e | u
      · rw [mainLoop_cons_video_err vsi ctx c i pkt rest e h0 hd]
        dsimp only
        rw [hklen]
        simp only [List.map_cons, List.sum_cons]
        omega
      · cases u
        by_cases hc : c > IMAGES_TOTAL
        · rw [mainLoop_cons_video_brk vsi ctx c i pkt rest h0 hd hc]
          dsimp only
          rw [hklen]
          simp only [List.map_cons, List.sum_cons]
          omega
        · rw [mainLoop_cons_video_ok vsi ctx c i pkt rest h0 hd hc]
          dsimp only
          rw [fileEvents_append, fileEvents_cons_unref, List.length_append, hklen]
          have := ih (decode_packet i pkt ctx).1 (c + 1) (i + 1)
          simp only [List.map_cons, List.sum_cons]
          omega
    · rw [mainLoop_cons_other vsi ctx c i pkt rest h0]
      dsimp only
      rw [fileEvents_cons_unref]
      have := ih ctx c (i + 1)
      simp only [List.map_cons, List.sum_cons]
      omega

/-- C10: when the demultiplexer reports end of stream, the decoder is never
flushed — no run ever submits a drain packet, the number of written files
never exceeds the frames delivered through packet drains, and the frames
still buffered inside the decoder at end of stream have no effect on the
run at all. -/
theorem c10_no_decoder_flush (env : Env) :
    Event.submitFlush ∉ (runMain env).1
    ∧ (fileEvents (runMain env).1).length ≤
        (env.packets.map (fun p => p.frames.length)).sum
    ∧ ∀ b, runMain { env with bufferedAtEof := b } = runMain env := by
  refine ⟨?_, ?_, fun b => by cases env; rfl⟩
  · rcases runMain_shape env with ⟨_, hnf⟩ | ⟨vsi, _, htr⟩
    · exact hnf
    · rw [htr]
      intro h
      rcases List.mem_append.mp h with h2 | h2
      · rcases List.mem_append.mp h2 with h3 | h3
        · simp at h3
        · exact mainLoop_no_flush env.packets vsi ⟨0⟩ 0 0 h3
      · simp at h2
  · rcases runMain_shape env with ⟨hfe, _⟩ | ⟨vsi, _, htr⟩
    · rw [hfe]
      simp
    · rw [htr, fileEvents_append, fileEvents_append, fileEvents_setup,
        fileEvents_teardown, List.nil_append, List.append_nil]
      exact mainLoop_files_le env.packets vsi ⟨0⟩ 0 0

end MP4toPNG
